import Mathlib

/-!
Shallow embedding of `src/app.py`: a small polling service that fetches a
JSON list from an external API, deduplicates candidates by their `period`
key against a SQL table (`KbtResult`, whose `period` column carries a
uniqueness constraint), commits the batch, and serves the latest 100 rows
on a web page.

Modelling decisions:
* JSON scalar values are modelled by `JVal`; Python's `str()` on them is
  `pyStr`.  A JSON object item is `Item`, whose three fields are `none`
  when the key is absent from the object.
* `item.get('period')` returns Python `None` both when the key is missing
  and when it is JSON `null`; `periodId` reflects this.
* app.py line 27 hardwires the `postgresql+psycopg2` dialect.  On
  PostgreSQL comparing the `varchar` column `period` with a non-string
  bind parameter has no operator, so
  `filter_by(period=<int or bool>)` raises `ProgrammingError` when the
  query runs; a `None` value gives `period IS NULL` (matches nothing,
  the column is `nullable=False`) and a string value matches exactly the
  rows storing that string.  `existsCheck` therefore returns an `Except`.
* `db.session.add` staging plus autoflush-visible pending rows are
  modelled by `stageLoop` threading the staged list through the existence
  checks (`existsCheck (db ++ staged)`); an exception raised by the query
  escapes the loop (`Except.error`).
* `db.session.commit()` succeeds iff no inserted row violates the
  uniqueness constraint on `period` against the committed rows or the
  other inserted rows (`conflictFree`); on violation the generic
  `except Exception` handler rolls the whole session back, the same
  handler that catches a `ProgrammingError` from the existence check.
* Network errors (`requests.exceptions.RequestException`), JSON decode
  errors and non-list responses are the remaining `FetchOutcome`s; each
  maps to the log message the corresponding branch prints (`LogMsg`).
-/

/-- JSON scalar value as seen by the Python code after `response.json()`. -/
inductive JVal where
  | s (v : String)
  | n (v : Int)
  | b (v : Bool)
  | null
  deriving DecidableEq

/-- Python `str()` applied to a `JVal` (`str('x') = 'x'`, `str(3) = '3'`,
`str(True) = 'True'`, `str(None) = 'None'`). -/
def pyStr : JVal → String
  | .s v => v
  | .n v => toString v
  | .b true => "True"
  | .b false => "False"
  | .null => "None"

/-- One parsed item of the fetched JSON list.  A field is `none` when the
key is absent from the JSON object. -/
structure Item where
  period : Option JVal
  number : Option JVal
  color  : Option JVal
  deriving DecidableEq

/-- One committed row of the `kbt_result` table (app.py lines 42-47): the
three payload columns.  The surrogate `id` and `created_at` columns play no
role in any claim and are omitted. -/
structure KbtResult where
  period : String
  number : String
  color  : String
  deriving DecidableEq

/-- The committed table contents, in insertion order. -/
abbrev Store := List KbtResult

/-- The multiset-as-list of stored `period` keys. -/
def periods (db : Store) : List String := db.map (·.period)

/-- `period_id = item.get('period')` (app.py line 70): Python `None` both
for a missing key and for JSON `null`. -/
def periodId (i : Item) : Option JVal :=
  match i.period with
  | some .null => none
  | p => p

/-- Whether binding this Python value against the `varchar` column
`period` raises on the hardwired PostgreSQL backend: a string compares
fine, `None` becomes `period IS NULL`, and any other value (integer,
boolean) has no `varchar = ...` operator. -/
def isBadKey : Option JVal → Bool
  | none => false
  | some (.s _) => false
  | some _ => true

/-- Whether some item of the batch carries a `period` value whose
existence query raises. -/
def hasBadPeriod (items : List Item) : Bool :=
  items.any (fun i => isBadKey (periodId i))

/-- `KbtResult.query.filter_by(period=period_id).first()` turned into a
boolean, over a given list of visible rows (app.py line 72): raises
`ProgrammingError` when the bind value is neither a string nor `None`
(no `varchar = integer/boolean` operator on PostgreSQL); a `None` value
(`period IS NULL`) matches no row because the column is `nullable=False`;
a string value matches the rows storing exactly that string. -/
def existsCheck (rows : Store) (k : Option JVal) : Except String Bool :=
  match k with
  | none => .ok false
  | some (.s str) => .ok (rows.any (fun r => str == r.period))
  | some _ => .error "ProgrammingError"

/-- The row constructed at app.py lines 75-79 for an item whose
`period_id` is the (non-`None`) value `v`: `period=str(period_id)`,
`number=str(item.get('number', 'N/A'))`, `color=str(item.get('color', 'N/A'))`. -/
def mkRec (i : Item) (v : JVal) : KbtResult :=
  { period := pyStr v
  , number := pyStr (i.number.getD (.s "N/A"))
  , color  := pyStr (i.color.getD (.s "N/A")) }

/-- The `for item in data` staging loop (app.py lines 69-81).  `staged` is
the list of rows already passed to `db.session.add`; autoflush makes them
visible to the existence query, hence the check runs over `db ++ staged`.
A raised `ProgrammingError` escapes the loop (`Except.error`); otherwise
an item is staged when the query found nothing and its `period_id` is not
`None`. -/
def stageLoop (db : Store) : List Item → List KbtResult → Except String (List KbtResult)
  | [], staged => .ok staged
  | item :: rest, staged =>
    match existsCheck (db ++ staged) (periodId item) with
    | .error e => .error e
    | .ok found =>
      match periodId item, found with
      | some v, false => stageLoop db rest (staged ++ [mkRec item v])
      | _, _ => stageLoop db rest staged

/-- Whether `db.session.commit()` of the rows `staged` into the table `db`
satisfies the uniqueness constraint on the `period` column (app.py line
44): each inserted row's `period` collides neither with a committed row
nor with another inserted row. -/
def conflictFree (db : Store) : List KbtResult → Bool
  | [] => true
  | r :: rest => !((db ++ rest).any (fun r2 => r2.period == r.period)) && conflictFree db rest

/-- The message printed by the branch of `fetch_and_store_data` that ends
the cycle. -/
inductive LogMsg where
  | stored (n : Nat)
  | noNew
  | invalidOrEmpty
  | netError
  | jsonError
  | unexpectedError
  deriving DecidableEq

/-- Outcome of `requests.get(...)` followed by `response.json()`:
a transport failure, a JSON decode failure, valid JSON that is not a list,
or a JSON list of items. -/
inductive FetchOutcome where
  | netErr
  | parseErr
  | nonList
  | ok (items : List Item)
  deriving DecidableEq

/-- Count of newly stored rows a cycle reports, read off its log message. -/
def newCount : LogMsg → Nat
  | .stored n => n
  | _ => 0

/-- One ingestion cycle, `fetch_and_store_data` (app.py lines 53-103),
as a function of the committed table and the fetch outcome; returns the
table after the cycle and the message the ending branch prints.  The
`isinstance(data, list) and data` guard sends both a non-list and an empty
list to the `invalidOrEmpty` branch; a `ProgrammingError` raised by an
existence query and an `IntegrityError` raised by a commit that violates
the uniqueness constraint are both caught by the generic handler, which
rolls the session back. -/
def fetch_and_store_data (db : Store) (f : FetchOutcome) : Store × LogMsg :=
  match f with
  | .netErr => (db, .netError)
  | .parseErr => (db, .jsonError)
  | .nonList => (db, .invalidOrEmpty)
  | .ok items =>
    if items.isEmpty then (db, .invalidOrEmpty)
    else
      match stageLoop db items [] with
      | .error _ => (db, .unexpectedError)
      | .ok staged =>
        if staged.length > 0 then
          if conflictFree db staged then (db ++ staged, .stored staged.length)
          else (db, .unexpectedError)
        else (db, .noNew)

/-- The scheduler running one cycle per fetch outcome in sequence
(app.py lines 134-136), tracking the committed table. -/
def runCycles (db : Store) (fs : List FetchOutcome) : Store :=
  fs.foldl (fun d f => (fetch_and_store_data d f).1) db

/-- Ordering used by `KbtResult.query.order_by(KbtResult.period.desc())`
(app.py line 115): descending string order on the `period` column. -/
def periodDesc (a b : KbtResult) : Bool := decide (b.period ≤ a.period)

/-- The read query of the index route (app.py line 115): rows ordered by
`period` descending, limited to 100. -/
def latestResults (db : Store) : List KbtResult :=
  (db.mergeSort periodDesc).take 100

/-- Outcome of the read query: success, or a raised exception carrying a
message (store unreachable, query failure). -/
inductive QueryOutcome where
  | ok
  | storeError (e : String)
  deriving DecidableEq

/-- The index route (app.py lines 106-124), as a function of the committed
table and the query outcome: the `results` list and the `error` string
handed to the template.  The timestamp rendering is display-only and
omitted. -/
def index (db : Store) (q : QueryOutcome) : List KbtResult × Option String :=
  match q with
  | .storeError e => ([], some ("Could not connect to the database or query results: " ++ e))
  | .ok => (latestResults db, none)

/-- The pieces `urlparse` extracts that app.py line 27 uses. -/
structure ParsedUrl where
  username : Option String
  password : Option String
  hostname : Option String
  port     : Option Nat
  path     : String
  query    : String
  deriving DecidableEq

/-- Outcome of `urlparse(DATABASE_URL)` and the attribute reads at app.py
lines 25-29: a parsed URL, or an exception message (e.g. an invalid port). -/
inductive UrlParseOutcome where
  | ok (u : ParsedUrl)
  | err (msg : String)
  deriving DecidableEq

/-- Python f-string interpolation of an optional string (`None` prints as
`'None'`). -/
def fstrOpt : Option String → String
  | some s => s
  | none => "None"

/-- The URL rebuilt at app.py lines 27-29. -/
def buildDbUrl (u : ParsedUrl) : String :=
  let base := "postgresql+psycopg2://" ++ fstrOpt u.username ++ ":" ++ fstrOpt u.password
    ++ "@" ++ fstrOpt u.hostname ++ ":" ++ toString (u.port.getD 5432) ++ "/"
    ++ (u.path.drop 1)
  if u.query = "" then base else base ++ "?" ++ u.query

/-- The startup configuration block (app.py lines 17-31): `DATABASE_URL`
is read from the environment (`none` when unset); `if not DATABASE_URL`
raises for an unset or empty value; a failure while parsing and rebuilding
the URL raises; otherwise the rebuilt URL is handed to SQLAlchemy.
`Except.error` is a raised `ValueError` terminating the process before the
app, the routes or the scheduler are created. -/
def startupConfig (dbUrl : Option String) (parse : UrlParseOutcome) : Except String String :=
  if dbUrl.getD "" = "" then
    .error "No DATABASE_URL set. Please set it in your .env file locally or in Render's environment variables."
  else
    match parse with
    | .err e => .error ("Could not process the DATABASE_URL. Error: " ++ e)
    | .ok u => .ok (buildDbUrl u)

/-! ### Helper lemmas -/

theorem stageLoop_nil (db : Store) (acc : List KbtResult) : stageLoop db [] acc = .ok acc := rfl

theorem stageLoop_cons_skip_none (db : Store) (i : Item) (rest : List Item)
    (acc : List KbtResult) (h : periodId i = none) :
    stageLoop db (i :: rest) acc = stageLoop db rest acc := by
  simp [stageLoop, h, existsCheck]

theorem stageLoop_cons_skip_found (db : Store) (i : Item) (rest : List Item)
    (acc : List KbtResult) (s : String) (h : periodId i = some (.s s))
    (he : (db ++ acc).any (fun r => s == r.period) = true) :
    stageLoop db (i :: rest) acc = stageLoop db rest acc := by
  simp [stageLoop, h, existsCheck, he]

theorem stageLoop_cons_stage (db : Store) (i : Item) (rest : List Item)
    (acc : List KbtResult) (s : String) (h : periodId i = some (.s s))
    (he : (db ++ acc).any (fun r => s == r.period) = false) :
    stageLoop db (i :: rest) acc = stageLoop db rest (acc ++ [mkRec i (.s s)]) := by
  simp [stageLoop, h, existsCheck, he]

theorem stageLoop_cons_error (db : Store) (i : Item) (rest : List Item)
    (acc : List KbtResult) (h : isBadKey (periodId i) = true) :
    stageLoop db (i :: rest) acc = .error "ProgrammingError" := by
  cases hp : periodId i with
  | none => rw [hp] at h; simp [isBadKey] at h
  | some v =>
    cases v with
    | s str => rw [hp] at h; simp [isBadKey] at h
    | n k => simp [stageLoop, hp, existsCheck]
    | b k => simp [stageLoop, hp, existsCheck]
    | null => simp [stageLoop, hp, existsCheck]

theorem string_of_goodKey {v : JVal} (h : isBadKey (some v) = false) : ∃ s, v = JVal.s s := by
  cases v with
  | s str => exact ⟨str, rfl⟩
  | n k => simp [isBadKey] at h
  | b k => simp [isBadKey] at h
  | null => simp [isBadKey] at h

theorem stageLoop_error_of_bad (db : Store) :
    ∀ (items : List Item), hasBadPeriod items = true →
    ∀ (acc : List KbtResult), stageLoop db items acc = .error "ProgrammingError" := by
  intro items
  induction items with
  | nil => intro h; simp [hasBadPeriod] at h
  | cons j rest ih =>
    intro h acc
    rw [hasBadPeriod, List.any_cons] at h
    cases hb : isBadKey (periodId j) with
    | true => exact stageLoop_cons_error db j rest acc hb
    | false =>
      rw [hb, Bool.false_or] at h
      cases hp : periodId j with
      | none => rw [stageLoop_cons_skip_none db j rest acc hp]; exact ih h acc
      | some v =>
        rw [hp] at hb
        rcases string_of_goodKey hb with ⟨s, rfl⟩
        cases he : (db ++ acc).any (fun r => s == r.period) with
        | true => rw [stageLoop_cons_skip_found db j rest acc s hp he]; exact ih h acc
        | false => rw [stageLoop_cons_stage db j rest acc s hp he]; exact ih h _

theorem good_of_stageLoop_ok {db : Store} {items : List Item} {acc out : List KbtResult}
    (hst : stageLoop db items acc = .ok out) : hasBadPeriod items = false := by
  cases hb : hasBadPeriod items with
  | false => rfl
  | true =>
    rw [stageLoop_error_of_bad db items hb acc] at hst
    exact Except.noConfusion hst

theorem periods_append (a b : Store) : periods (a ++ b) = periods a ++ periods b :=
  List.map_append _ _ _

theorem mem_stageLoop_ok (db : Store) :
    ∀ (items : List Item) (acc out : List KbtResult),
    stageLoop db items acc = .ok out → ∀ r ∈ acc, r ∈ out := by
  intro items
  induction items with
  | nil =>
    intro acc out hst r hr
    rw [stageLoop_nil] at hst
    rw [← Except.ok.inj hst]
    exact hr
  | cons j rest ih =>
    intro acc out hst r hr
    cases hb : isBadKey (periodId j) with
    | true =>
      rw [stageLoop_cons_error db j rest acc hb] at hst
      exact Except.noConfusion hst
    | false =>
      cases hp : periodId j with
      | none =>
        rw [stageLoop_cons_skip_none db j rest acc hp] at hst
        exact ih acc out hst r hr
      | some v =>
        rw [hp] at hb
        rcases string_of_goodKey hb with ⟨s, rfl⟩
        cases he : (db ++ acc).any (fun r2 => s == r2.period) with
        | true =>
          rw [stageLoop_cons_skip_found db j rest acc s hp he] at hst
          exact ih acc out hst r hr
        | false =>
          rw [stageLoop_cons_stage db j rest acc s hp he] at hst
          exact ih _ out hst r (List.mem_append_left _ hr)

theorem stageLoop_ok_covers (db : Store) :
    ∀ (items : List Item) (acc out : List KbtResult),
    stageLoop db items acc = .ok out →
    ∀ i ∈ items, ∀ s, periodId i = some (.s s) → s ∈ periods (db ++ out) := by
  intro items
  induction items with
  | nil => intro acc out _ i hi; exact absurd hi (List.not_mem_nil i)
  | cons j rest ih =>
    intro acc out hst i hi s hs
    rcases List.mem_cons.mp hi with rfl | hmem
    · cases he : (db ++ acc).any (fun r2 => s == r2.period) with
      | true =>
        rw [stageLoop_cons_skip_found db i rest acc s hs he] at hst
        rw [List.any_eq_true] at he
        rcases he with ⟨x, hx, hxe⟩
        rw [beq_iff_eq] at hxe
        rw [periods_append]
        rcases List.mem_append.mp hx with hx1 | hx1
        · exact List.mem_append_left _ (List.mem_map.mpr ⟨x, hx1, hxe.symm⟩)
        · have hx2 : x ∈ out := mem_stageLoop_ok db rest acc out hst x hx1
          exact List.mem_append_right _ (List.mem_map.mpr ⟨x, hx2, hxe.symm⟩)
      | false =>
        rw [stageLoop_cons_stage db i rest acc s hs he] at hst
        have hx2 : mkRec i (.s s) ∈ out :=
          mem_stageLoop_ok db rest _ out hst _ (List.mem_append_right _ (List.mem_singleton.mpr rfl))
        rw [periods_append]
        exact List.mem_append_right _ (List.mem_map.mpr ⟨mkRec i (.s s), hx2, rfl⟩)
    · cases hb : isBadKey (periodId j) with
      | true =>
        rw [stageLoop_cons_error db j rest acc hb] at hst
        exact Except.noConfusion hst
      | false =>
        cases hp : periodId j with
        | none =>
          rw [stageLoop_cons_skip_none db j rest acc hp] at hst
          exact ih acc out hst i hmem s hs
        | some v =>
          rw [hp] at hb
          rcases string_of_goodKey hb with ⟨w, rfl⟩
          cases he : (db ++ acc).any (fun r2 => w == r2.period) with
          | true =>
            rw [stageLoop_cons_skip_found db j rest acc w hp he] at hst
            exact ih acc out hst i hmem s hs
          | false =>
            rw [stageLoop_cons_stage db j rest acc w hp he] at hst
            exact ih _ out hst i hmem s hs

theorem stageLoop_all_found (db : Store) :
    ∀ (items : List Item) (acc : List KbtResult),
    (∀ i ∈ items, ∀ v, periodId i = some v → ∃ s, v = JVal.s s ∧ s ∈ periods db) →
    stageLoop db items acc = .ok acc := by
  intro items
  induction items with
  | nil => intro acc _; rfl
  | cons j rest ih =>
    intro acc hall
    cases hp : periodId j with
    | none =>
      rw [stageLoop_cons_skip_none db j rest acc hp]
      exact ih acc (fun i hi => hall i (List.mem_cons_of_mem _ hi))
    | some v =>
      rcases hall j (List.mem_cons_self _ _) v hp with ⟨s, rfl, hs⟩
      have he : (db ++ acc).any (fun r2 => s == r2.period) = true := by
        rw [List.any_eq_true]
        rcases List.mem_map.mp hs with ⟨x, hx, hxe⟩
        exact ⟨x, List.mem_append_left _ hx, by simp [hxe]⟩
      rw [stageLoop_cons_skip_found db j rest acc s hp he]
      exact ih acc (fun i hi => hall i (List.mem_cons_of_mem _ hi))

theorem good_period_string {items : List Item} (hgood : hasBadPeriod items = false)
    {i : Item} (hi : i ∈ items) {v : JVal} (hv : periodId i = some v) :
    ∃ s, v = JVal.s s := by
  rw [hasBadPeriod, List.any_eq_false] at hgood
  have hb : ¬ isBadKey (periodId i) = true := hgood i hi
  rw [hv] at hb
  exact string_of_goodKey (Bool.not_eq_true _ ▸ Bool.of_not_eq_true hb)

theorem not_mem_periods_of_any_false {rows : Store} {p : String}
    (h : rows.any (fun r2 => r2.period == p) = false) : p ∉ periods rows := by
  intro hm
  rw [List.any_eq_false] at h
  rcases List.mem_map.mp hm with ⟨r, hr, hp⟩
  exact h r hr (by simp [hp])

theorem conflictFree_nodup : ∀ (staged : List KbtResult) (db : Store),
    conflictFree db staged = true → (periods db).Nodup → (periods (db ++ staged)).Nodup := by
  intro staged
  induction staged with
  | nil => intro db _ h; simpa using h
  | cons r rest ih =>
    intro db hcf hnd
    rw [conflictFree, Bool.and_eq_true, Bool.not_eq_true'] at hcf
    have hnotin : r.period ∉ periods (db ++ rest) := not_mem_periods_of_any_false hcf.1
    have hrest : (periods (db ++ rest)).Nodup := ih db hcf.2 hnd
    have hshape : periods (db ++ r :: rest) = periods db ++ r.period :: periods rest := by
      rw [periods_append]; rfl
    rw [hshape, List.nodup_middle, List.nodup_cons]
    rw [periods_append] at hnotin hrest
    exact ⟨hnotin, hrest⟩

theorem conflictFree_push {db : Store} (r : KbtResult) :
    ∀ (acc : List KbtResult), conflictFree db acc = true →
    (∀ x ∈ db ++ acc, x.period ≠ r.period) →
    conflictFree db (acc ++ [r]) = true := by
  intro acc
  induction acc with
  | nil =>
    intro _ h2
    have hany : (db ++ ([] : List KbtResult)).any (fun r2 => r2.period == r.period) = false := by
      rw [List.any_eq_false]
      intro x hx
      simp only [beq_iff_eq]
      exact h2 x hx
    show (!(db ++ ([] : List KbtResult)).any (fun r2 => r2.period == r.period)
      && conflictFree db []) = true
    rw [hany]
    rfl
  | cons a acc' ih =>
    intro h1 h2
    rw [conflictFree, Bool.and_eq_true, Bool.not_eq_true'] at h1
    show conflictFree db (a :: (acc' ++ [r])) = true
    rw [conflictFree, Bool.and_eq_true, Bool.not_eq_true']
    constructor
    · rw [List.any_eq_false]
      intro x hx
      simp only [beq_iff_eq]
      rw [List.any_eq_false] at *
      rcases List.mem_append.mp hx with hx1 | hx1
      · intro hc
        exact h1.1 x (List.mem_append_left _ hx1) (by simp [hc])
      · rcases List.mem_append.mp hx1 with hx2 | hx2
        · intro hc
          exact h1.1 x (List.mem_append_right _ hx2) (by simp [hc])
        · rw [List.mem_singleton] at hx2
          subst hx2
          have : a.period ≠ x.period :=
            h2 a (List.mem_append_right _ (List.mem_cons_self _ _))
          exact fun hc => this hc.symm
    · refine ih h1.2 ?_
      intro x hx
      rcases List.mem_append.mp hx with hx1 | hx1
      · exact h2 x (List.mem_append_left _ hx1)
      · exact h2 x (List.mem_append_right _ (List.mem_cons_of_mem _ hx1))

theorem stageLoop_ok_conflictFree (db : Store) :
    ∀ (items : List Item) (acc out : List KbtResult),
    conflictFree db acc = true → stageLoop db items acc = .ok out →
    conflictFree db out = true := by
  intro items
  induction items with
  | nil =>
    intro acc out h1 hst
    rw [stageLoop_nil] at hst
    rw [← Except.ok.inj hst]
    exact h1
  | cons j rest ih =>
    intro acc out h1 hst
    cases hb : isBadKey (periodId j) with
    | true =>
      rw [stageLoop_cons_error db j rest acc hb] at hst
      exact Except.noConfusion hst
    | false =>
      cases hp : periodId j with
      | none =>
        rw [stageLoop_cons_skip_none db j rest acc hp] at hst
        exact ih acc out h1 hst
      | some v =>
        rw [hp] at hb
        rcases string_of_goodKey hb with ⟨s, rfl⟩
        cases he : (db ++ acc).any (fun r2 => s == r2.period) with
        | true =>
          rw [stageLoop_cons_skip_found db j rest acc s hp he] at hst
          exact ih acc out h1 hst
        | false =>
          rw [stageLoop_cons_stage db j rest acc s hp he] at hst
          refine ih _ out ?_ hst
          refine conflictFree_push _ acc h1 ?_
          intro x hx
          rw [List.any_eq_false] at he
          have hne : ¬ (s == x.period) = true := he x hx
          rw [beq_iff_eq] at hne
          show ¬ x.period = s
          exact fun hc => hne hc.symm

/-- In the single-writer embedding a committed batch can never violate the
uniqueness constraint: every staged row's `period` was found absent from
the committed and already-staged rows at its staging point, so a
duplicate-key `IntegrityError` inside one cycle requires a concurrent
writer inserting between the existence check and the commit, which this
sequential model does not contain. -/
theorem sequential_commit_never_conflicts (db : Store) (items : List Item)
    (staged : List KbtResult) (hst : stageLoop db items [] = .ok staged) :
    conflictFree db staged = true :=
  stageLoop_ok_conflictFree db items [] staged rfl hst

theorem cycle_ok_empty (db : Store) : fetch_and_store_data db (.ok []) = (db, .invalidOrEmpty) := rfl

theorem cycle_ok_error {db : Store} {items : List Item} {e : String}
    (hemp : items.isEmpty = false) (hst : stageLoop db items [] = .error e) :
    fetch_and_store_data db (.ok items) = (db, .unexpectedError) := by
  simp [fetch_and_store_data, hemp, hst]

theorem cycle_ok_commit {db : Store} {items : List Item} {staged : List KbtResult}
    (hemp : items.isEmpty = false) (hst : stageLoop db items [] = .ok staged)
    (hlen : 0 < staged.length) (hcf : conflictFree db staged = true) :
    fetch_and_store_data db (.ok items) = (db ++ staged, .stored staged.length) := by
  simp [fetch_and_store_data, hemp, hst, hlen, hcf]

theorem cycle_ok_conflict {db : Store} {items : List Item} {staged : List KbtResult}
    (hemp : items.isEmpty = false) (hst : stageLoop db items [] = .ok staged)
    (hcf : conflictFree db staged = false) :
    fetch_and_store_data db (.ok items) = (db, .unexpectedError) := by
  have hne : staged ≠ [] := by
    intro h
    rw [h] at hcf
    exact Bool.noConfusion hcf
  have hlen : 0 < staged.length := List.length_pos.mpr hne
  simp [fetch_and_store_data, hemp, hst, hlen, hcf]

theorem cycle_ok_none {db : Store} {items : List Item} {staged : List KbtResult}
    (hemp : items.isEmpty = false) (hst : stageLoop db items [] = .ok staged)
    (hlen : staged.length = 0) :
    fetch_and_store_data db (.ok items) = (db, .noNew) := by
  simp [fetch_and_store_data, hemp, hst, hlen]

theorem cycle_preserves_nodup (db : Store) (f : FetchOutcome)
    (h : (periods db).Nodup) : (periods (fetch_and_store_data db f).1).Nodup := by
  cases f with
  | netErr => exact h
  | parseErr => exact h
  | nonList => exact h
  | ok items =>
    cases hemp : items.isEmpty with
    | true =>
      have hnil : items = [] := List.isEmpty_iff.mp hemp
      subst hnil
      exact h
    | false =>
      cases hst : stageLoop db items [] with
      | error e => rw [cycle_ok_error hemp hst]; exact h
      | ok staged =>
        cases hlen : staged.length with
        | zero => rw [cycle_ok_none hemp hst hlen]; exact h
        | succ n =>
          cases hcf : conflictFree db staged with
          | true =>
            rw [cycle_ok_commit hemp hst (by omega) hcf]
            exact conflictFree_nodup _ db hcf h
          | false =>
            rw [cycle_ok_conflict hemp hst hcf]
            exact h

theorem stageLoop_drop_nokey (db : Store) (i : Item) (hi : periodId i = none) :
    ∀ (pre post : List Item) (acc : List KbtResult),
    stageLoop db (pre ++ i :: post) acc = stageLoop db (pre ++ post) acc := by
  intro pre
  induction pre with
  | nil =>
    intro post acc
    rw [List.nil_append, List.nil_append, stageLoop_cons_skip_none db i post acc hi]
  | cons p rest ih =>
    intro post acc
    rw [List.cons_append, List.cons_append]
    cases hb : isBadKey (periodId p) with
    | true => rw [stageLoop_cons_error db p _ acc hb, stageLoop_cons_error db p _ acc hb]
    | false =>
      cases hp : periodId p with
      | none =>
        rw [stageLoop_cons_skip_none db p _ acc hp, stageLoop_cons_skip_none db p _ acc hp]
        exact ih post acc
      | some v =>
        rw [hp] at hb
        rcases string_of_goodKey hb with ⟨s, rfl⟩
        cases he : (db ++ acc).any (fun r => s == r.period) with
        | true =>
          rw [stageLoop_cons_skip_found db p _ acc s hp he,
            stageLoop_cons_skip_found db p _ acc s hp he]
          exact ih post acc
        | false =>
          rw [stageLoop_cons_stage db p _ acc s hp he,
            stageLoop_cons_stage db p _ acc s hp he]
          exact ih post _

/-! ### Claims -/

/-- C1: across any sequence of ingestion cycles the store never holds two
rows with the same `period`: starting from a table whose `period` keys are
pairwise distinct, they stay pairwise distinct, the uniqueness constraint
(`conflictFree`, not the pre-insert check) rejecting every violating
commit. -/
theorem store_periods_unique_across_cycles (db : Store) (fs : List FetchOutcome)
    (h : (periods db).Nodup) : (periods (runCycles db fs)).Nodup := by
  induction fs generalizing db with
  | nil => exact h
  | cons f fs ih => exact ih _ (cycle_preserves_nodup db f h)

theorem store_periods_unique_across_cycles_witness :
    (periods ([] : Store)).Nodup
    ∧ (periods (runCycles []
        [.ok [⟨some (.s "100"), some (.s "5"), some (.s "red")⟩],
         .ok [⟨some (.s "100"), some (.s "5"), some (.s "red")⟩,
              ⟨some (.s "101"), some (.s "3"), some (.s "green")⟩]])).Nodup :=
  ⟨by decide, store_periods_unique_across_cycles [] _ (by decide)⟩

/-- C4: running the same cycle twice on an identical fetch outcome leaves
the table of the first run unchanged and stores zero new records the
second time. -/
theorem cycle_idempotent (db : Store) (f : FetchOutcome) :
    (fetch_and_store_data (fetch_and_store_data db f).1 f).1 = (fetch_and_store_data db f).1
    ∧ newCount (fetch_and_store_data (fetch_and_store_data db f).1 f).2 = 0 := by
  cases f with
  | netErr => exact ⟨rfl, rfl⟩
  | parseErr => exact ⟨rfl, rfl⟩
  | nonList => exact ⟨rfl, rfl⟩
  | ok items =>
    cases hemp : items.isEmpty with
    | true =>
      have hnil : items = [] := List.isEmpty_iff.mp hemp
      subst hnil
      exact ⟨rfl, rfl⟩
    | false =>
      cases hst : stageLoop db items [] with
      | error e =>
        rw [cycle_ok_error hemp hst]
        constructor
        · show (fetch_and_store_data db (.ok items)).1 = db
          rw [cycle_ok_error hemp hst]
        · show newCount (fetch_and_store_data db (.ok items)).2 = 0
          rw [cycle_ok_error hemp hst]
          rfl
      | ok staged =>
        cases hlen : staged.length with
        | zero =>
          rw [cycle_ok_none hemp hst hlen]
          constructor
          · show (fetch_and_store_data db (.ok items)).1 = db
            rw [cycle_ok_none hemp hst hlen]
          · show newCount (fetch_and_store_data db (.ok items)).2 = 0
            rw [cycle_ok_none hemp hst hlen]
            rfl
        | succ n =>
          cases hcf : conflictFree db staged with
          | false =>
            rw [cycle_ok_conflict hemp hst hcf]
            constructor
            · show (fetch_and_store_data db (.ok items)).1 = db
              rw [cycle_ok_conflict hemp hst hcf]
            · show newCount (fetch_and_store_data db (.ok items)).2 = 0
              rw [cycle_ok_conflict hemp hst hcf]
              rfl
          | true =>
            rw [cycle_ok_commit hemp hst (by omega) hcf]
            have hgood : hasBadPeriod items = false := good_of_stageLoop_ok hst
            have hfound : ∀ i ∈ items, ∀ v, periodId i = some v →
                ∃ s, v = JVal.s s ∧ s ∈ periods (db ++ staged) := by
              intro i hi v hv
              rcases good_period_string hgood hi hv with ⟨s, rfl⟩
              exact ⟨s, rfl, stageLoop_ok_covers db items [] staged hst i hi s hv⟩
            have hst2 : stageLoop (db ++ staged) items [] = .ok [] :=
              stageLoop_all_found (db ++ staged) items [] hfound
            constructor
            · show (fetch_and_store_data (db ++ staged) (.ok items)).1 = db ++ staged
              rw [cycle_ok_none hemp hst2 rfl]
            · show newCount (fetch_and_store_data (db ++ staged) (.ok items)).2 = 0
              rw [cycle_ok_none hemp hst2 rfl]
              rfl

/-- C5: a candidate whose `period` key is absent is silently dropped: the
table after the cycle is the same as if the candidate had not been in the
batch at all, so the other candidates' storage is unaffected and nothing
fails; and a staged candidate missing `number` or `color` gets the sentinel
`"N/A"` substituted in the stored row. -/
theorem missing_key_dropped_sentinel_stored (db : Store) (pre post : List Item) (i : Item)
    (h : periodId i = none) :
    (fetch_and_store_data db (.ok (pre ++ i :: post))).1
      = (fetch_and_store_data db (.ok (pre ++ post))).1
    ∧ ∀ j v, periodId j = some v →
        (j.number = none → (mkRec j v).number = "N/A")
        ∧ (j.color = none → (mkRec j v).color = "N/A") := by
  constructor
  · have hemp1 : (pre ++ i :: post).isEmpty = false := by
      cases pre with
      | nil => rfl
      | cons a as => rfl
    have hst : stageLoop db (pre ++ i :: post) [] = stageLoop db (pre ++ post) [] :=
      stageLoop_drop_nokey db i h pre post []
    cases hpp : (pre ++ post).isEmpty with
    | true =>
      have hnil : pre ++ post = [] := List.isEmpty_iff.mp hpp
      have hok : stageLoop db (pre ++ i :: post) [] = .ok [] := by
        rw [hst, hnil]
        rfl
      rw [cycle_ok_none hemp1 hok rfl, hnil, cycle_ok_empty]
    | false =>
      cases hres : stageLoop db (pre ++ post) [] with
      | error e =>
        have h1 : stageLoop db (pre ++ i :: post) [] = .error e := by
          rw [hst]
          exact hres
        rw [cycle_ok_error hemp1 h1, cycle_ok_error hpp hres]
      | ok staged =>
        have h1 : stageLoop db (pre ++ i :: post) [] = .ok staged := by
          rw [hst]
          exact hres
        cases hlen : staged.length with
        | zero => rw [cycle_ok_none hemp1 h1 hlen, cycle_ok_none hpp hres hlen]
        | succ m =>
          cases hcf : conflictFree db staged with
          | true =>
            rw [cycle_ok_commit hemp1 h1 (by omega) hcf,
              cycle_ok_commit hpp hres (by omega) hcf]
          | false => rw [cycle_ok_conflict hemp1 h1 hcf, cycle_ok_conflict hpp hres hcf]
  · intro j v hj
    exact ⟨fun hn => by simp [mkRec, hn, pyStr], fun hc => by simp [mkRec, hc, pyStr]⟩

theorem missing_key_dropped_sentinel_stored_witness :
    periodId ⟨none, some (.s "9"), none⟩ = none
    ∧ (fetch_and_store_data [] (.ok
        ([⟨some (.s "7"), none, none⟩] ++ (⟨none, some (.s "9"), none⟩ : Item) :: []))).1
      = (fetch_and_store_data [] (.ok ([⟨some (.s "7"), none, none⟩] ++ []))).1 :=
  ⟨rfl, (missing_key_dropped_sentinel_stored [] [⟨some (.s "7"), none, none⟩] []
    ⟨none, some (.s "9"), none⟩ rfl).1⟩

/-- C6 counterexample: on an empty parsed list the cycle does not print the
zero-new-records message: it takes the same `invalidOrEmpty` branch as a
non-list response (the guard `isinstance(data, list) and data` lumps the
two together), contradicting the claim that the count of zero is reported
as a normal outcome distinct from treating the response as invalid. -/
theorem empty_response_logging_cex :
    (fetch_and_store_data [] (.ok [])).2 = .invalidOrEmpty
    ∧ (fetch_and_store_data [] .nonList).2 = .invalidOrEmpty
    ∧ (fetch_and_store_data [] (.ok [])).2 ≠ .noNew
    ∧ (fetch_and_store_data [] (.ok [])).2 ≠ .stored 0 := by
  decide

/-- C6 amended: a fetch response parsing to an empty list completes the
cycle without error and stores nothing (the table is unchanged), but the
cycle does not report a zero count of new records: it logs through the
same "was not a valid list or was empty" branch used for a non-list
response. -/
theorem empty_response_valid_but_logged_invalid (db : Store) :
    fetch_and_store_data db (.ok []) = (db, .invalidOrEmpty)
    ∧ fetch_and_store_data db .nonList = (db, .invalidOrEmpty) :=
  ⟨rfl, rfl⟩

/-- C7: when the read query raises, the index route degrades to an empty
result list plus the descriptive error string, and still returns a
rendered page (the route is total). -/
theorem read_view_degrades_on_store_error (db : Store) (e : String) :
    (index db (.storeError e)).1 = []
    ∧ (index db (.storeError e)).2
        = some ("Could not connect to the database or query results: " ++ e) :=
  ⟨rfl, rfl⟩

/-- C8: the index route returns at most 100 rows, ordered by `period`
descending, all drawn from the store; on an empty store it returns an
empty list and no error. -/
theorem read_view_ordered_and_limited (db : Store) :
    (index db .ok).1.length ≤ 100
    ∧ (index db .ok).1.Pairwise (fun a b => periodDesc a b = true)
    ∧ (∀ r, r ∈ (index db .ok).1 → r ∈ db)
    ∧ index ([] : Store) .ok = ([], none) := by
  refine ⟨?_, ?_, ?_, ?_⟩
  · show ((db.mergeSort periodDesc).take 100).length ≤ 100
    simp [List.length_take]
  · show ((db.mergeSort periodDesc).take 100).Pairwise (fun a b => periodDesc a b = true)
    apply List.Pairwise.sublist (List.take_sublist _ _)
    apply List.sorted_mergeSort
    · intro a b c hab hbc
      unfold periodDesc at *
      rw [decide_eq_true_eq] at *
      exact le_trans hbc hab
    · intro a b
      unfold periodDesc
      rcases le_total b.period a.period with hle | hle
      · simp [hle]
      · simp [hle]
  · intro r hr
    have hr2 : r ∈ (db.mergeSort periodDesc).take 100 := hr
    have := List.mem_of_mem_take hr2
    exact (List.mergeSort_perm db periodDesc).mem_iff.mp this
  · show (latestResults [], (none : Option String)) = ([], none)
    simp [latestResults]

/-- C9: startup fails fast: an unset `DATABASE_URL`, an empty one, and one
whose parsing/rebuilding raises all end in a raised `ValueError`
(`Except.error`) before the app, routes or scheduler exist. -/
theorem startup_fails_fast_on_bad_config :
    (∀ p, ∃ m, startupConfig none p = .error m)
    ∧ (∀ p, ∃ m, startupConfig (some "") p = .error m)
    ∧ (∀ url e, ∃ m, startupConfig (some url) (.err e) = .error m) := by
  refine ⟨fun p => ⟨_, rfl⟩, fun p => ⟨_, rfl⟩, fun url e => ?_⟩
  by_cases h : url = ""
  · subst h
    exact ⟨_, rfl⟩
  · refine ⟨"Could not process the DATABASE_URL. Error: " ++ e, ?_⟩
    unfold startupConfig
    rw [if_neg (by simpa using h)]

/-- C10 counterexample: a candidate with the non-string period `5` never
gets a stored string key at all: the existence query
`filter_by(period=5)` raises `ProgrammingError` on the hardwired
PostgreSQL backend before app.py line 75 constructs a row, the generic
handler rolls the cycle back, and nothing is stored — so there is no
"key that is stored" differing from the checked key. -/
theorem raw_key_query_aborts_cex :
    fetch_and_store_data [] (.ok [⟨some (.n 5), some (.s "1"), some (.s "red")⟩])
      = ([], .unexpectedError)
    ∧ (⟨"5","1","red"⟩ : KbtResult) ∉
        (fetch_and_store_data [] (.ok [⟨some (.n 5), some (.s "1"), some (.s "red")⟩])).1 := by
  decide

/-- C10 amended: the existence check queries with the raw payload value
`period_id`.  For a candidate whose period is a string, the checked key
and the stored key coincide: the constructed row stores that same string
and the query matches exactly the rows holding it.  For a candidate with
a non-string period, the stored string key never exists: the query itself
raises (`varchar` against a non-string has no operator on the hardwired
PostgreSQL backend), the generic handler catches it, and a cycle whose
batch contains such a candidate rolls back storing nothing. -/
theorem raw_key_check_coincide_or_abort (i : Item) :
    (∀ s, periodId i = some (.s s) →
      (mkRec i (.s s)).period = s
      ∧ ∀ rows : Store, existsCheck rows (periodId i)
          = .ok (rows.any (fun r => s == r.period)))
    ∧ (∀ v, periodId i = some v → isBadKey (some v) = true →
      (∀ rows : Store, existsCheck rows (periodId i) = .error "ProgrammingError")
      ∧ ∀ (db : Store) (items : List Item), i ∈ items →
          fetch_and_store_data db (.ok items) = (db, .unexpectedError)) := by
  constructor
  · intro s hs
    refine ⟨rfl, ?_⟩
    intro rows
    rw [hs]
    rfl
  · intro v hv hbad
    constructor
    · intro rows
      rw [hv]
      rcases v with s | k | k | _
      · simp [isBadKey] at hbad
      · rfl
      · rfl
      · rfl
    · intro db items hmem
      have hemp : items.isEmpty = false := by
        cases items with
        | nil => exact absurd hmem (List.not_mem_nil i)
        | cons a as => rfl
      have hbadp : hasBadPeriod items = true := by
        rw [hasBadPeriod, List.any_eq_true]
        exact ⟨i, hmem, by rw [hv]; exact hbad⟩
      exact cycle_ok_error hemp (stageLoop_error_of_bad db items hbadp [])

theorem raw_key_check_coincide_or_abort_witness :
    (mkRec ⟨some (.s "7"), none, none⟩ (.s "7")).period = "7"
    ∧ fetch_and_store_data [] (.ok [⟨some (.n 5), none, none⟩]) = ([], .unexpectedError) :=
  ⟨((raw_key_check_coincide_or_abort ⟨some (.s "7"), none, none⟩).1 "7" rfl).1,
   ((raw_key_check_coincide_or_abort ⟨some (.n 5), none, none⟩).2 (.n 5) rfl rfl).2
     [] _ (List.mem_singleton.mpr rfl)⟩
